import Mathlib

/-!
Shallow embedding of the `fsx` core facade (`packages/core/src/fsx.js`).

The facade (`class Fsx`) holds a base implementation and a current
implementation, a map of named logs, and dispatches data operations
(`text`, `json`, `arrayBuffer`, `write`) to the current implementation
after recording a `LogEntry` into every open log.

Modelling conventions:
* JavaScript values passed through the facade are opaque; we model them
  with the inductive `Value`.  Object reference identity (JS `===`) is
  modelled by a `Nat` tag: `Value.obj n` is a reference to the object
  with identity `n`, and an `Impl` carries its identity in its `ref`
  field, so `a === b` for impls becomes `a.ref = b.ref`.
* An implementation's duck-typed method table (`impl[methodName]`) is an
  association list from method names to functions; a name absent from
  the table models `typeof impl[name] !== "function"`.
* A backend method either returns a value or throws; we model it as
  `List Value → Except Value Value` (the error side is the opaque thrown
  value, wrapped by the facade model in `FsxError.backend` only to give
  facade results a single error type; the payload is untouched).
* JS exceptions become the error side of `Except`.  Because a method may
  mutate the instance before throwing (e.g. `setImpl` logs and then
  throws), every state-touching operation returns
  `Except FsxError α × Fsx`: the second component is the post state
  whether or not the call failed.
* `Date.now()` timestamps are modelled by a logical clock `clock` in the
  facade state, read when a log record is created and advanced per
  recording call.
* JS `Map` preserves insertion order, so the log registry is an
  association list (unique names) in insertion order.
-/

/-- An opaque JavaScript value flowing through the facade: a string, a
number, a reference to an object with identity `n`, or `undefined`. -/
inductive Value where
  | str : String → Value
  | num : Int → Value
  | obj : Nat → Value
  | undef : Value
deriving DecidableEq, Repr

/-- `class LogEntry` (fsx.js 50–79): the name of the method called, the
arguments to the method, and the creation-time clock reading. -/
structure LogEntry where
  methodName : String
  args : List Value
  timestamp : Nat
deriving DecidableEq, Repr

/-- A backend implementation: its object identity (for `===`) and its
duck-typed method table.  A method takes the argument list and either
returns a value or throws an opaque error value. -/
structure Impl where
  ref : Nat
  methods : List (String × (List Value → Except Value Value))

/-- The errors the facade can surface: `NoSuchMethodError` (fsx.js
19–28), `ImplAreadySetError` (fsx.js 33–41), the `TypeError` for an
invalid log name (fsx.js 137), the `Error`s for a duplicate log (fsx.js
141) and an unknown log (fsx.js 160), and an opaque backend-thrown
value passed through unchanged. -/
inductive FsxError where
  | noSuchMethod : String → FsxError
  | implAlreadySet : FsxError
  | invalidLogName : FsxError
  | duplicateLog : String → FsxError
  | unknownLog : String → FsxError
  | backend : Value → FsxError
deriving DecidableEq, Repr

/-- The state of a `Fsx` instance (fsx.js 85–113): `#baseImpl`, `#impl`,
the `#logs` map (insertion-ordered, unique names), and the logical clock
standing in for `Date.now()`. -/
structure Fsx where
  baseImpl : Impl
  impl : Impl
  logs : List (String × List LogEntry)
  clock : Nat

namespace Fsx

/-- `constructor({ impl })` (fsx.js 110–113): both `#baseImpl` and
`#impl` start as the supplied implementation; `#logs` starts empty. -/
def new (impl : Impl) : Fsx :=
  ⟨impl, impl, [], 0⟩

/-- `#log(methodName, ...args)` (fsx.js 121–125): push a new `LogEntry`
onto every currently open log. -/
def log (fsx : Fsx) (methodName : String) (args : List Value) : Fsx :=
  { fsx with
      logs := fsx.logs.map (fun pr => (pr.1, pr.2 ++ [⟨methodName, args, fsx.clock⟩]))
      clock := fsx.clock + 1 }

/-- `logStart(name)` (fsx.js 134–145): `TypeError` on an empty name,
`Error` when the log already exists, otherwise register a fresh empty
log under `name`. -/
def logStart (fsx : Fsx) (name : String) : Except FsxError Unit × Fsx :=
  if name = "" then
    (.error .invalidLogName, fsx)
  else if fsx.logs.any (fun pr => pr.1 == name) then
    (.error (.duplicateLog name), fsx)
  else
    (.ok (), { fsx with logs := fsx.logs ++ [(name, [])] })

/-- `logEnd(name)` (fsx.js 153–161): when a log with that name is open,
remove it from the registry and return its entries; otherwise throw. -/
def logEnd (fsx : Fsx) (name : String) : Except FsxError (List LogEntry) × Fsx :=
  match fsx.logs.find? (fun pr => pr.1 == name) with
  | some pr => (.ok pr.2, { fsx with logs := fsx.logs.filter (fun q => q.1 != name) })
  | none => (.error (.unknownLog name), fsx)

/-- `isBaseImpl()` (fsx.js 167–169): whether `#impl === #baseImpl`. -/
def isBaseImpl (fsx : Fsx) : Bool :=
  fsx.impl.ref == fsx.baseImpl.ref

/-- `setImpl(impl)` (fsx.js 176–184): log `"implSet"` with the new
implementation as argument, then throw `ImplAreadySetError` when
`#impl !== #baseImpl`, otherwise make `impl` the current one. -/
def setImpl (fsx : Fsx) (impl : Impl) : Except FsxError Unit × Fsx :=
  let f := fsx.log "implSet" [Value.obj impl.ref]
  if f.impl.ref ≠ f.baseImpl.ref then
    (.error .implAlreadySet, f)
  else
    (.ok (), { f with impl := impl })

/-- `resetImpl()` (fsx.js 190–193): log `"implReset"` with no arguments
and unconditionally restore `#impl` to `#baseImpl`. -/
def resetImpl (fsx : Fsx) : Fsx :=
  let f := fsx.log "implReset" []
  { f with impl := f.baseImpl }

end Fsx

/-- Duck-typed method lookup, `impl[methodName]` being a function:
the table entry for `name`, when present. -/
def Impl.lookupMethod (impl : Impl) (name : String) :
    Option (List Value → Except Value Value) :=
  (impl.methods.find? (fun pr => pr.1 == name)).map (fun pr => pr.2)

namespace Fsx

/-- `#callImplMethod(methodName, ...args)` (fsx.js 214–218): log first,
then `#assertImplMethod` (fsx.js 201–205) throws `NoSuchMethodError`
when the current implementation lacks the method, otherwise invoke the
method with the same arguments and pass its result or failure through. -/
def callImplMethod (fsx : Fsx) (methodName : String) (args : List Value) :
    Except FsxError Value × Fsx :=
  let f := fsx.log methodName args
  match f.impl.lookupMethod methodName with
  | none => (.error (.noSuchMethod methodName), f)
  | some m =>
    match m args with
    | .ok v => (.ok v, f)
    | .error e => (.error (.backend e), f)

/-- `text(filePath)` (fsx.js 226–228). -/
def text (fsx : Fsx) (filePath : Value) : Except FsxError Value × Fsx :=
  fsx.callImplMethod "text" [filePath]

/-- `json(filePath)` (fsx.js 236–238). -/
def json (fsx : Fsx) (filePath : Value) : Except FsxError Value × Fsx :=
  fsx.callImplMethod "json" [filePath]

/-- `arrayBuffer(filePath)` (fsx.js 246–248). -/
def arrayBuffer (fsx : Fsx) (filePath : Value) : Except FsxError Value × Fsx :=
  fsx.callImplMethod "arrayBuffer" [filePath]

/-- `write(filePath, data)` (fsx.js 257–259). -/
def write (fsx : Fsx) (filePath data : Value) : Except FsxError Value × Fsx :=
  fsx.callImplMethod "write" [filePath, data]

/-- The complete list of data-operation methods declared on the `Fsx`
class in the source (fsx.js 226–259), in declaration order. -/
def dataOps : List String :=
  ["text", "json", "arrayBuffer", "write"]

end Fsx

/-- Modelled from the spec: the data operations §4.2 of the spec claims
the Facade exposes one public method for, in the spec's order.  Kept
separate from `Fsx.dataOps` (which lists what the source declares) so
the two can be compared. -/
def specDataOps : List String :=
  ["text", "json", "bytes", "arrayBuffer", "write", "isFile", "isDirectory",
   "createDirectory", "delete", "deleteAll", "list", "size", "copy",
   "copyAll", "move"]

deriving instance DecidableEq for Except

/-- A sample implementation exposing all four data operations, used to
instantiate the universally quantified theorems below. -/
def implAll : Impl :=
  ⟨1, [("text", fun _ => .ok (.str "T")),
      ("json", fun _ => .ok (.str "J")),
      ("arrayBuffer", fun _ => .ok (.str "B")),
      ("write", fun _ => .ok .undef)]⟩

/-- A sample partial implementation exposing only `text` (the test
double of the spec's §8 example), used to instantiate the universally
quantified theorems below. -/
def implTextOnly : Impl :=
  ⟨2, [("text", fun _ => .ok (.str "T"))]⟩

/-- `#log` does not touch the current implementation. -/
theorem Fsx.log_impl (fsx : Fsx) (m : String) (args : List Value) :
    (fsx.log m args).impl = fsx.impl := rfl

/-- The post state of `#callImplMethod` is the logging step, whatever
the dispatch outcome. -/
theorem Fsx.callImplMethod_snd (fsx : Fsx) (m : String) (args : List Value) :
    (fsx.callImplMethod m args).2 = fsx.log m args := by
  unfold Fsx.callImplMethod
  dsimp only
  cases h : (fsx.log m args).impl.lookupMethod m with
  | none => rfl
  | some f =>
    simp only [h]
    cases hf : f args <;> rfl

/-- When the current implementation exposes `m`, `#callImplMethod`
invokes it on the given arguments and passes its result or failure
through unchanged. -/
theorem Fsx.callImplMethod_forwards (fsx : Fsx) (m : String) (args : List Value)
    (f : List Value → Except Value Value) (h : fsx.impl.lookupMethod m = some f) :
    (fsx.callImplMethod m args).1 = (f args).mapError FsxError.backend := by
  unfold Fsx.callImplMethod
  dsimp only
  rw [show (fsx.log m args).impl = fsx.impl from rfl, h]
  cases hf : f args <;> simp [hf, Except.mapError]

/-- When the current implementation lacks `m`, `#callImplMethod` fails
with `NoSuchMethodError` naming `m`. -/
theorem Fsx.callImplMethod_missing (fsx : Fsx) (m : String) (args : List Value)
    (h : fsx.impl.lookupMethod m = none) :
    (fsx.callImplMethod m args).1 = .error (.noSuchMethod m) := by
  unfold Fsx.callImplMethod
  dsimp only
  rw [show (fsx.log m args).impl = fsx.impl from rfl, h]

/-- C1: for every active implementation that exposes a data operation
`op` (`op` among `text`, `json`, `arrayBuffer`, `write`), calling the
facade's `op` invokes the implementation's `op` with exactly the given
arguments and returns its result unchanged, or propagates its thrown
value unchanged (`FsxError.backend` is the model's wrapper for the
untouched payload). -/
theorem facade_forwards_data_ops (fsx : Fsx) (p d : Value)
    (f : List Value → Except Value Value) :
    (fsx.impl.lookupMethod "text" = some f →
      (fsx.text p).1 = (f [p]).mapError FsxError.backend) ∧
    (fsx.impl.lookupMethod "json" = some f →
      (fsx.json p).1 = (f [p]).mapError FsxError.backend) ∧
    (fsx.impl.lookupMethod "arrayBuffer" = some f →
      (fsx.arrayBuffer p).1 = (f [p]).mapError FsxError.backend) ∧
    (fsx.impl.lookupMethod "write" = some f →
      (fsx.write p d).1 = (f [p, d]).mapError FsxError.backend) :=
  ⟨fsx.callImplMethod_forwards "text" [p] f,
   fsx.callImplMethod_forwards "json" [p] f,
   fsx.callImplMethod_forwards "arrayBuffer" [p] f,
   fsx.callImplMethod_forwards "write" [p, d] f⟩

/-- Witness for C1: the full implementation `implAll` on all four
operations, and the partial, text-only implementation `implTextOnly` on
the one operation it exposes. -/
theorem facade_forwards_data_ops_witness :
    ((Fsx.new implTextOnly).text (.str "f")).1 = .ok (.str "T") ∧
    ((Fsx.new implAll).text (.str "f")).1 = .ok (.str "T") ∧
    ((Fsx.new implAll).json (.str "f")).1 = .ok (.str "J") ∧
    ((Fsx.new implAll).arrayBuffer (.str "f")).1 = .ok (.str "B") ∧
    ((Fsx.new implAll).write (.str "f") (.str "d")).1 = .ok .undef :=
  ⟨(facade_forwards_data_ops (Fsx.new implTextOnly) (.str "f") .undef _).1 rfl,
   (facade_forwards_data_ops (Fsx.new implAll) (.str "f") (.str "d") _).1 rfl,
   (facade_forwards_data_ops (Fsx.new implAll) (.str "f") (.str "d") _).2.1 rfl,
   (facade_forwards_data_ops (Fsx.new implAll) (.str "f") (.str "d") _).2.2.1 rfl,
   (facade_forwards_data_ops (Fsx.new implAll) (.str "f") (.str "d") _).2.2.2 rfl⟩

/-- C2: for every active implementation that does not expose a callable
member named `op`, calling the facade's `op` fails with
`NoSuchMethodError` naming `op`, and with no other error type. -/
theorem facade_missing_method_error (fsx : Fsx) (m : String) (args : List Value)
    (p d : Value) :
    (fsx.impl.lookupMethod m = none →
      (fsx.callImplMethod m args).1 = .error (.noSuchMethod m)) ∧
    (fsx.impl.lookupMethod "text" = none →
      (fsx.text p).1 = .error (.noSuchMethod "text")) ∧
    (fsx.impl.lookupMethod "json" = none →
      (fsx.json p).1 = .error (.noSuchMethod "json")) ∧
    (fsx.impl.lookupMethod "arrayBuffer" = none →
      (fsx.arrayBuffer p).1 = .error (.noSuchMethod "arrayBuffer")) ∧
    (fsx.impl.lookupMethod "write" = none →
      (fsx.write p d).1 = .error (.noSuchMethod "write")) :=
  ⟨fsx.callImplMethod_missing m args,
   fsx.callImplMethod_missing "text" [p],
   fsx.callImplMethod_missing "json" [p],
   fsx.callImplMethod_missing "arrayBuffer" [p],
   fsx.callImplMethod_missing "write" [p, d]⟩

/-- Witness for C2: the text-only implementation `implTextOnly` fails
with `NoSuchMethod` on the operations it lacks (`write`, `json`, and
an arbitrary name `size`) while still exposing `text`. -/
theorem facade_missing_method_error_witness :
    ((Fsx.new implTextOnly).write (.str "f") (.str "x")).1
        = .error (.noSuchMethod "write") ∧
    ((Fsx.new implTextOnly).json (.str "f")).1 = .error (.noSuchMethod "json") ∧
    ((Fsx.new implTextOnly).arrayBuffer (.str "f")).1
        = .error (.noSuchMethod "arrayBuffer") ∧
    ((Fsx.new implTextOnly).callImplMethod "size" []).1
        = .error (.noSuchMethod "size") ∧
    ((Fsx.new ⟨0, []⟩).text (.str "f")).1 = .error (.noSuchMethod "text") :=
  ⟨(facade_missing_method_error (Fsx.new implTextOnly) "size" [] (.str "f")
      (.str "x")).2.2.2.2 rfl,
   (facade_missing_method_error (Fsx.new implTextOnly) "size" [] (.str "f")
      (.str "x")).2.2.1 rfl,
   (facade_missing_method_error (Fsx.new implTextOnly) "size" [] (.str "f")
      (.str "x")).2.2.2.1 rfl,
   (facade_missing_method_error (Fsx.new implTextOnly) "size" [] (.str "f")
      (.str "x")).1 rfl,
   (facade_missing_method_error (Fsx.new ⟨0, []⟩) "size" [] (.str "f")
      (.str "x")).2.1 rfl⟩

/-- C6: every data-operation call appends a call record carrying that
operation's name and arguments to every open log, before the dispatch
check and the backend invocation: the post-state logs are the pre-state
logs with the record appended to each entry, whatever the outcome of
the call. -/
theorem data_ops_logged_unconditionally (fsx : Fsx) (m : String) (args : List Value)
    (p d : Value) :
    (fsx.callImplMethod m args).2.logs
        = fsx.logs.map (fun pr => (pr.1, pr.2 ++ [⟨m, args, fsx.clock⟩])) ∧
    (fsx.text p).2.logs
        = fsx.logs.map (fun pr => (pr.1, pr.2 ++ [⟨"text", [p], fsx.clock⟩])) ∧
    (fsx.json p).2.logs
        = fsx.logs.map (fun pr => (pr.1, pr.2 ++ [⟨"json", [p], fsx.clock⟩])) ∧
    (fsx.arrayBuffer p).2.logs
        = fsx.logs.map (fun pr => (pr.1, pr.2 ++ [⟨"arrayBuffer", [p], fsx.clock⟩])) ∧
    (fsx.write p d).2.logs
        = fsx.logs.map (fun pr => (pr.1, pr.2 ++ [⟨"write", [p, d], fsx.clock⟩])) := by
  refine ⟨?_, ?_, ?_, ?_, ?_⟩ <;>
    simp only [Fsx.text, Fsx.json, Fsx.arrayBuffer, Fsx.write, Fsx.callImplMethod_snd] <;>
    rfl

/-- C10: the call records produced by the control operations use the
internal names `"implSet"` (argument: the new implementation) and
`"implReset"` (no arguments), which differ from the public names
`setImpl`/`resetImpl`; `logStart` and `logEnd` append no record to any
open log (each either updates the registry membership or leaves the
state untouched). -/
theorem control_ops_log_internal_names (fsx : Fsx) (b : Impl) (name : String) :
    (fsx.setImpl b).2.logs
        = fsx.logs.map (fun pr => (pr.1, pr.2 ++ [⟨"implSet", [Value.obj b.ref], fsx.clock⟩])) ∧
    fsx.resetImpl.logs
        = fsx.logs.map (fun pr => (pr.1, pr.2 ++ [⟨"implReset", [], fsx.clock⟩])) ∧
    ("implSet" ≠ "setImpl" ∧ "implReset" ≠ "resetImpl") ∧
    ((fsx.logStart name).2.logs = fsx.logs ++ [(name, [])] ∨ (fsx.logStart name).2 = fsx) ∧
    ((fsx.logEnd name).2.logs = fsx.logs.filter (fun pr => pr.1 != name) ∨
      (fsx.logEnd name).2 = fsx) := by
  refine ⟨?_, rfl, ⟨by decide, by decide⟩, ?_, ?_⟩
  · unfold Fsx.setImpl
    dsimp only
    split <;> rfl
  · unfold Fsx.logStart
    split
    · exact Or.inr rfl
    · split
      · exact Or.inr rfl
      · exact Or.inl rfl
  · unfold Fsx.logEnd
    split
    · exact Or.inl rfl
    · exact Or.inr rfl

/-- C3 counterexample: the spec's §4.2 surface list names `bytes` (and
ten further operations), but the `Fsx` class in the source declares no
such method — its data operations are exactly `Fsx.dataOps`. -/
theorem facade_surface_counterexample :
    "bytes" ∈ specDataOps ∧ "bytes" ∉ Fsx.dataOps ∧ Fsx.dataOps ≠ specDataOps := by
  decide

/-- C3 amended: the facade exposes a public method for exactly the data
operations `text`, `json`, `arrayBuffer` and `write` — each dispatching
to the active implementation under its own name — plus the control
operations `isBaseImpl`, `setImpl`, `resetImpl`, `logStart`, `logEnd`;
of the fifteen operations the spec lists, only those four are present. -/
theorem facade_surface (fsx : Fsx) (p d : Value) :
    fsx.text p = fsx.callImplMethod "text" [p] ∧
    fsx.json p = fsx.callImplMethod "json" [p] ∧
    fsx.arrayBuffer p = fsx.callImplMethod "arrayBuffer" [p] ∧
    fsx.write p d = fsx.callImplMethod "write" [p, d] ∧
    Fsx.dataOps = ["text", "json", "arrayBuffer", "write"] ∧
    specDataOps.filter (fun op => Fsx.dataOps.contains op) = Fsx.dataOps ∧
    fsx.resetImpl.impl = fsx.baseImpl :=
  ⟨rfl, rfl, rfl, rfl, rfl, by decide, rfl⟩

/-- C4 counterexample: passing the base implementation itself to the
first `setImpl` leaves `#impl === #baseImpl`, so a second `setImpl`
without an intervening `resetImpl` succeeds instead of failing. -/
theorem setImpl_twice_counterexample :
    (((Fsx.new ⟨0, []⟩).setImpl ⟨0, []⟩).1 = .ok ()) ∧
    ((((Fsx.new ⟨0, []⟩).setImpl ⟨0, []⟩).2.setImpl ⟨1, []⟩).1 = .ok ()) ∧
    (((Fsx.new ⟨0, []⟩).setImpl ⟨0, []⟩).2.setImpl ⟨1, []⟩).2.impl.ref = 1 := by
  decide

/-- C4 amended: when the first `setImpl` installs an implementation not
reference-identical to the base one, a second `setImpl` without an
intervening `resetImpl` fails with `ImplAreadySetError`, and after the
failed call the active implementation is still the first one set. -/
theorem setImpl_twice (fsx : Fsx) (b c : Impl)
    (h0 : fsx.impl.ref = fsx.baseImpl.ref) (hb : b.ref ≠ fsx.baseImpl.ref) :
    (fsx.setImpl b).1 = .ok () ∧
    ((fsx.setImpl b).2.setImpl c).1 = .error .implAlreadySet ∧
    ((fsx.setImpl b).2.setImpl c).2.impl = b := by
  unfold Fsx.setImpl Fsx.log
  dsimp only
  rw [if_neg (by simpa using h0), if_pos (by simpa using hb)]
  exact ⟨rfl, rfl, rfl⟩

/-- Witness for C4 at concrete implementations with identities 0, 1, 2. -/
theorem setImpl_twice_witness :
    ((Fsx.new ⟨0, []⟩).setImpl ⟨1, []⟩).1 = .ok () ∧
    (((Fsx.new ⟨0, []⟩).setImpl ⟨1, []⟩).2.setImpl ⟨2, []⟩).1 = .error .implAlreadySet ∧
    (((Fsx.new ⟨0, []⟩).setImpl ⟨1, []⟩).2.setImpl ⟨2, []⟩).2.impl = ⟨1, []⟩ :=
  setImpl_twice (Fsx.new ⟨0, []⟩) ⟨1, []⟩ ⟨2, []⟩ rfl (by decide)

/-- C5 counterexample: `setImpl` called with the base implementation
itself succeeds, yet `isBaseImpl()` still returns `true` afterwards, so
`isBaseImpl()` is not false after every successful `setImpl`. -/
theorem isBaseImpl_counterexample :
    ((Fsx.new ⟨0, []⟩).setImpl ⟨0, []⟩).1 = .ok () ∧
    ((Fsx.new ⟨0, []⟩).setImpl ⟨0, []⟩).2.isBaseImpl = true := by
  decide

/-- C5 amended: `isBaseImpl()` returns `true` immediately after
construction and after any `resetImpl()`, and returns `false`
immediately after every successful `setImpl(impl)` whose argument is
not reference-identical to the base implementation. -/
theorem isBaseImpl_transitions (impl b : Impl) (fsx g : Fsx)
    (hb : b.ref ≠ fsx.baseImpl.ref) (hok : (fsx.setImpl b).1 = .ok ()) :
    (Fsx.new impl).isBaseImpl = true ∧
    g.resetImpl.isBaseImpl = true ∧
    (fsx.setImpl b).2.isBaseImpl = false := by
  refine ⟨by simp [Fsx.new, Fsx.isBaseImpl], by simp [Fsx.resetImpl, Fsx.log, Fsx.isBaseImpl], ?_⟩
  unfold Fsx.setImpl Fsx.log at hok ⊢
  dsimp only at hok ⊢
  by_cases h : fsx.impl.ref = fsx.baseImpl.ref
  · rw [if_neg (by simpa using h)] at hok ⊢
    simp [Fsx.isBaseImpl, hb]
  · rw [if_pos (by simpa using h)] at hok
    exact absurd hok (by simp)

/-- Witness for C5: a fresh facade over identity 0, a swapped facade
reset back, and a successful swap to identity 1. -/
theorem isBaseImpl_transitions_witness :
    (Fsx.new ⟨5, []⟩).isBaseImpl = true ∧
    (Fsx.mk ⟨0, []⟩ ⟨1, []⟩ [] 0).resetImpl.isBaseImpl = true ∧
    ((Fsx.new ⟨0, []⟩).setImpl ⟨1, []⟩).2.isBaseImpl = false :=
  isBaseImpl_transitions ⟨5, []⟩ ⟨1, []⟩ (Fsx.new ⟨0, []⟩) (Fsx.mk ⟨0, []⟩ ⟨1, []⟩ [] 0)
    (by decide) (by decide)

/-- C7 counterexample: with log `"a"` open and a swap already in
effect, a `setImpl` call that fails with `ImplAreadySetError` still
appends its `"implSet"` record to the open log — the log contents are
not left exactly as they were before the failed call. -/
theorem failed_setImpl_logging_counterexample :
    (((((Fsx.new ⟨0, []⟩).logStart "a").2.setImpl ⟨1, []⟩).2.setImpl ⟨2, []⟩).1
        = .error .implAlreadySet) ∧
    ((((Fsx.new ⟨0, []⟩).logStart "a").2.setImpl ⟨1, []⟩).2.logs
        = [("a", [⟨"implSet", [.obj 1], 0⟩])]) ∧
    (((((Fsx.new ⟨0, []⟩).logStart "a").2.setImpl ⟨1, []⟩).2.setImpl ⟨2, []⟩).2.logs
        = [("a", [⟨"implSet", [.obj 1], 0⟩, ⟨"implSet", [.obj 2], 1⟩])]) := by
  decide

/-- C7 amended: a `setImpl` call that fails leaves the active and base
implementations and the registry's set of open logs exactly as before —
though, per the unconditional-logging rule, its `"implSet"` record is
still appended to every open log's contents — and a `logStart` call
that fails leaves the whole state exactly as before the call. -/
theorem failed_calls_leave_state (fsx g : Fsx) (b : Impl) (name : String) (e e' : FsxError)
    (h1 : (fsx.setImpl b).1 = .error e)
    (h2 : (g.logStart name).1 = .error e') :
    (fsx.setImpl b).2.impl = fsx.impl ∧
    (fsx.setImpl b).2.baseImpl = fsx.baseImpl ∧
    (fsx.setImpl b).2.logs.map Prod.fst = fsx.logs.map Prod.fst ∧
    (fsx.setImpl b).2.logs
        = fsx.logs.map (fun pr => (pr.1, pr.2 ++ [⟨"implSet", [Value.obj b.ref], fsx.clock⟩])) ∧
    (g.logStart name).2 = g := by
  have hls : (g.logStart name).2 = g := by
    unfold Fsx.logStart at h2 ⊢
    by_cases hn : name = ""
    · rw [if_pos hn]
    · rw [if_neg hn] at h2 ⊢
      by_cases hd : (g.logs.any fun pr => pr.1 == name) = true
      · rw [if_pos hd]
      · rw [if_neg hd] at h2
        exact absurd h2 (by simp)
  unfold Fsx.setImpl Fsx.log at h1 ⊢
  dsimp only at h1 ⊢
  by_cases h : fsx.impl.ref = fsx.baseImpl.ref
  · rw [if_neg (by simpa using h)] at h1
    exact absurd h1 (by simp)
  · rw [if_pos (by simpa using h)]
    exact ⟨rfl, rfl, by simp, rfl, hls⟩

/-- Witness for C7: a swapped facade with log `"a"` open whose `setImpl`
fails with `ImplAreadySetError`, and an independent fresh facade on
which a second `logStart "x"` fails as a duplicate and changes nothing. -/
theorem failed_calls_leave_state_witness :
    ((Fsx.mk ⟨0, []⟩ ⟨1, []⟩ [("a", [])] 0).setImpl ⟨2, []⟩).2.impl = ⟨1, []⟩ ∧
    ((Fsx.mk ⟨0, []⟩ ⟨1, []⟩ [("a", [])] 0).setImpl ⟨2, []⟩).2.baseImpl = ⟨0, []⟩ ∧
    ((Fsx.mk ⟨0, []⟩ ⟨1, []⟩ [("a", [])] 0).setImpl ⟨2, []⟩).2.logs.map Prod.fst = ["a"] ∧
    ((Fsx.mk ⟨0, []⟩ ⟨1, []⟩ [("a", [])] 0).setImpl ⟨2, []⟩).2.logs
        = [("a", [⟨"implSet", [.obj 2], 0⟩])] ∧
    ((((Fsx.new ⟨0, []⟩).logStart "x").2.logStart "x")).2
        = ((Fsx.new ⟨0, []⟩).logStart "x").2 :=
  failed_calls_leave_state (Fsx.mk ⟨0, []⟩ ⟨1, []⟩ [("a", [])] 0)
    ((Fsx.new ⟨0, []⟩).logStart "x").2 ⟨2, []⟩ "x"
    .implAlreadySet (.duplicateLog "x") (by decide) (by decide)

/-- When every entry of `xs` has a name other than `n`, `find?` on
`xs ++ [(n, es)]` returns the appended entry. -/
theorem find?_name_append (xs : List (String × List LogEntry)) (n : String) (es : List LogEntry)
    (h : ∀ pr ∈ xs, pr.1 ≠ n) :
    (xs ++ [(n, es)]).find? (fun pr => pr.1 == n) = some (n, es) := by
  induction xs with
  | nil => simp
  | cons x xs ih =>
    have hx : (x.1 == n) = false := by simpa using h x (by simp)
    simp only [List.cons_append, List.find?_cons, hx]
    exact ih (fun pr hpr => h pr (by simp [hpr]))

/-- When every entry of `xs` has a name other than `n`, filtering `n`
out of `xs ++ [(n, es)]` gives back `xs`. -/
theorem filter_name_append (xs : List (String × List LogEntry)) (n : String) (es : List LogEntry)
    (h : ∀ pr ∈ xs, pr.1 ≠ n) :
    (xs ++ [(n, es)]).filter (fun pr => pr.1 != n) = xs := by
  induction xs with
  | nil => simp
  | cons x xs ih =>
    have hx : (x.1 != n) = true := by
      simpa [bne_iff_ne] using h x (by simp)
    rw [List.cons_append,
      List.filter_cons_of_pos (p := fun pr : String × List LogEntry => pr.1 != n) hx,
      ih (fun pr hpr => h pr (by simp [hpr]))]

/-- C8: starting a log `"a"`, making two data-operation calls and then
ending `"a"` yields exactly the two call records, in invocation order,
with the two calls' method names and argument lists, and removes `"a"`
from the registry (the remaining log names are exactly those open
before). -/
theorem logEnd_two_records (fsx : Fsx) (p q d : Value)
    (ha : ∀ pr ∈ fsx.logs, pr.1 ≠ "a") :
    (fsx.logStart "a").1 = .ok () ∧
    ((((fsx.logStart "a").2.text p).2.write q d).2.logEnd "a").1
        = .ok [⟨"text", [p], fsx.clock⟩, ⟨"write", [q, d], fsx.clock + 1⟩] ∧
    ((((fsx.logStart "a").2.text p).2.write q d).2.logEnd "a").2.logs.map Prod.fst
        = fsx.logs.map Prod.fst := by
  have hany : (fsx.logs.any fun pr => pr.1 == "a") = false := by
    simp only [List.any_eq_false, beq_iff_eq]
    exact fun pr hpr => ha pr hpr
  have h1 : fsx.logStart "a" = (.ok (), { fsx with logs := fsx.logs ++ [("a", [])] }) := by
    unfold Fsx.logStart
    rw [if_neg (by decide), if_neg (by simp [hany])]
  have h2 : (((fsx.logStart "a").2.text p).2.write q d).2.logs
      = fsx.logs.map (fun pr =>
          (pr.1, pr.2 ++ [⟨"text", [p], fsx.clock⟩, ⟨"write", [q, d], fsx.clock + 1⟩]))
        ++ [("a", [⟨"text", [p], fsx.clock⟩, ⟨"write", [q, d], fsx.clock + 1⟩])] := by
    rw [h1]
    simp [Fsx.text, Fsx.write, Fsx.callImplMethod_snd, Fsx.log]
  have hnames : ∀ pr ∈ fsx.logs.map (fun pr =>
          (pr.1, pr.2 ++ [(⟨"text", [p], fsx.clock⟩ : LogEntry),
            ⟨"write", [q, d], fsx.clock + 1⟩])),
      pr.1 ≠ "a" := by
    intro pr hpr
    obtain ⟨x, hx, rfl⟩ := List.mem_map.mp hpr
    exact ha x hx
  refine ⟨by rw [h1], ?_, ?_⟩
  · unfold Fsx.logEnd
    rw [h2, find?_name_append _ _ _ hnames]
  · unfold Fsx.logEnd
    rw [h2, find?_name_append _ _ _ hnames]
    dsimp only
    rw [filter_name_append _ _ _ hnames]
    simp

/-- Witness for C8: a fresh facade over `implAll`, reading `"f"` and
writing `"x"` to `"g"` between `logStart` and `logEnd`. -/
theorem logEnd_two_records_witness :
    ((Fsx.new implAll).logStart "a").1 = .ok () ∧
    (((((Fsx.new implAll).logStart "a").2.text (.str "f")).2.write (.str "g")
        (.str "x")).2.logEnd "a").1
        = .ok [⟨"text", [.str "f"], 0⟩, ⟨"write", [.str "g", .str "x"], 1⟩] ∧
    (((((Fsx.new implAll).logStart "a").2.text (.str "f")).2.write (.str "g")
        (.str "x")).2.logEnd "a").2.logs.map Prod.fst
        = ([] : List String) :=
  logEnd_two_records (Fsx.new implAll) (.str "f") (.str "g") (.str "x")
    (by simp [Fsx.new])

/-- C9: with logs `"a"` and `"b"` both open, a call is recorded in both;
ending `"b"` returns its records without touching `"a"`'s accumulated
sequence, and `"a"` keeps accumulating subsequent calls. -/
theorem concurrent_logs_independent (base cur : Impl) (ea eb : List LogEntry) (k : Nat)
    (m1 m2 : String) (a1 a2 : List Value) :
    ((Fsx.mk base cur [("a", ea), ("b", eb)] k).callImplMethod m1 a1).2.logs
        = [("a", ea ++ [⟨m1, a1, k⟩]), ("b", eb ++ [⟨m1, a1, k⟩])] ∧
    (((Fsx.mk base cur [("a", ea), ("b", eb)] k).callImplMethod m1 a1).2.logEnd "b").1
        = .ok (eb ++ [⟨m1, a1, k⟩]) ∧
    (((Fsx.mk base cur [("a", ea), ("b", eb)] k).callImplMethod m1 a1).2.logEnd "b").2.logs
        = [("a", ea ++ [⟨m1, a1, k⟩])] ∧
    ((((Fsx.mk base cur [("a", ea), ("b", eb)] k).callImplMethod m1 a1).2.logEnd
        "b").2.callImplMethod m2 a2).2.logs
        = [("a", ea ++ [⟨m1, a1, k⟩, ⟨m2, a2, k + 1⟩])] := by
  refine ⟨?_, ?_, ?_, ?_⟩ <;>
    simp [Fsx.callImplMethod_snd, Fsx.log, Fsx.logEnd, List.find?, List.filter]
